import Mathlib

/-!
Shallow embedding of the business-search backend (src/backend/server.py) of
the UK Trade Contact Intelligence service.

Conventions of the embedding:
* Python strings are Lean `String` / `List Char`; the character classes of
  the regexes used by the code are modelled over their ASCII behaviour.
* Python floats are modelled as rationals (`ℚ`); the similarity scores the
  code computes are ratios of small integers plus literal constants.
* External collaborators (the places provider, the company registry, the
  offline postcode table, the wall clock) are an explicit `Env` record of
  oracle functions; `Except Unit` models a call that may raise.
* A FastAPI `HTTPException` is an `HTTPError` value; an endpoint returns
  `Except HTTPError` of its response model.  Note that in Python
  `HTTPException` is a subclass of `Exception`, so a blanket
  `except Exception` catches it; the embedding of `search_businesses`
  reproduces this.
* The MongoDB collection is a list of stored documents; the `update_one`
  with `upsert=True` of `cache_business_info` is an explicit function on
  that list.  The cache write performed inside the search loop is a
  fire-and-forget effect whose errors the code swallows; it does not
  influence the control flow or the response, so the search model does not
  thread the store.
-/

/-- Python whitespace characters as used by `str.split`, `str.strip` and
the regex class backslash-s (ASCII range). -/
def pySpace (c : Char) : Bool :=
  c = ' ' || c = '\t' || c = '\n' || c = '\x0d' || c = '\x0b' || c = '\x0c'

/-- Characters matched by the regex class backslash-w (ASCII range):
letters, digits and the underscore. -/
def pyWordChar (c : Char) : Bool :=
  c.isAlphanum || c = '_'

/-- 'name.lower()' on the character list. -/
def pyLower (s : List Char) : List Char := s.map Char.toLower

/-- 'address.upper()' on the character list. -/
def pyUpper (s : List Char) : List Char := s.map Char.toUpper

/-- 're.sub(non-word-non-space, empty, s)': delete every character that is
neither a word character nor whitespace. -/
def stripPunct (s : List Char) : List Char :=
  s.filter (fun c => pyWordChar c || pySpace c)

/-- 's.strip()': drop whitespace from both ends. -/
def pyStrip (s : List Char) : List Char :=
  ((s.dropWhile pySpace).reverse.dropWhile pySpace).reverse

/-- Fuel-indexed core of `removeAll`; the fuel starts at the length of the
string, which bounds the number of steps, keeping the recursion structural
(hence kernel-evaluable). -/
def removeAllFuel (pat : List Char) : Nat → List Char → List Char
  | 0, s => s
  | _ + 1, [] => []
  | fuel + 1, c :: rest =>
    if pat ≠ [] ∧ pat.isPrefixOf (c :: rest) then
      removeAllFuel pat fuel (List.drop pat.length (c :: rest))
    else
      c :: removeAllFuel pat fuel rest

/-- 's.replace(pat, empty)': delete all non-overlapping occurrences of
`pat`, scanning left to right (Python `str.replace` with empty
replacement). -/
def removeAll (pat s : List Char) : List Char :=
  removeAllFuel pat s.length s

/-- Accumulator core of `pyWords`. -/
def pyWordsAux : List Char → List Char → List (List Char)
  | [], acc => if acc = [] then [] else [acc.reverse]
  | c :: rest, acc =>
    if pySpace c then
      if acc = [] then pyWordsAux rest []
      else acc.reverse :: pyWordsAux rest []
    else
      pyWordsAux rest (c :: acc)

/-- 's.split()' with no argument: split on whitespace runs, discarding
empty fields. -/
def pyWords (s : List Char) : List (List Char) := pyWordsAux s []

/-- The legal-entity suffixes stripped by `calculate_name_similarity`,
in source order. -/
def businessSuffixes : List (List Char) :=
  [ "ltd".data, "limited".data, "plc".data, "llp".data,
    "limited liability partnership".data, "company".data, "co".data ]

/-- The suffix-stripping loop of `calculate_name_similarity`: for each
suffix, delete every occurrence of (space ++ suffix), then every occurrence
of (suffix ++ space). -/
def stripSuffixes (s : List Char) : List Char :=
  businessSuffixes.foldl
    (fun t suf => removeAll (suf ++ [' ']) (removeAll (' ' :: suf) t)) s

/-- The normalisation pipeline applied to each argument of
`calculate_name_similarity`: lowercase, delete punctuation, strip outer
whitespace, strip legal suffixes. -/
def normalizeName (s : String) : List Char :=
  stripSuffixes (pyStrip (stripPunct (pyLower s.data)))

/-- The word set of a normalised business name. -/
def wordSet (s : String) : Finset (List Char) :=
  (pyWords (normalizeName s)).toFinset

/-- `calculate_name_similarity` (server.py lines 157-178): word-set Jaccard
similarity of the two normalised names, with the empty-set guard and the
union guard of the source. -/
def calculate_name_similarity (name1 name2 : String) : ℚ :=
  let words1 := wordSet name1
  let words2 := wordSet name2
  if words1 = ∅ ∨ words2 = ∅ then 0
  else
    let inter := words1 ∩ words2
    let union := words1 ∪ words2
    if union = ∅ then 0
    else (inter.card : ℚ) / (union.card : ℚ)

/-- 'bt.lower()' on a `String`. -/
def pyLowerS (s : String) : String := ⟨pyLower s.data⟩

/-- Accumulator core of `pyTitle`: the boolean records whether the previous
character was cased (a letter). -/
def pyTitleAux : List Char → Bool → List Char
  | [], _ => []
  | c :: rest, prevCased =>
    if c.isAlpha then
      (if prevCased then c.toLower else c.toUpper) :: pyTitleAux rest true
    else
      c :: pyTitleAux rest false

/-- 'bt.title()': every letter that starts a run of letters is uppercased,
every other letter lowercased; non-letters pass through and break runs. -/
def pyTitle (s : String) : String := ⟨pyTitleAux s.data false⟩

/-- The static lookup table of `map_business_type_to_google_type`
(server.py lines 270-286): trade category to provider type and search
keyword. -/
def type_mapping : List (String × String × String) :=
  [ ("carpenter", "general_contractor", "carpenter joiner"),
    ("builder", "general_contractor", "builder construction"),
    ("electrician", "electrician", "electrician electrical contractor"),
    ("plumber", "plumber", "plumber plumbing services"),
    ("roofer", "roofing_contractor", "roofer roofing services"),
    ("painter", "painter", "painter decorator"),
    ("landscaper", "general_contractor", "landscaper gardening"),
    ("plasterer", "general_contractor", "plasterer plastering services"),
    ("groundworker", "general_contractor", "groundwork excavation"),
    ("bricklayer", "general_contractor", "bricklayer masonry"),
    ("heating_engineer", "plumber", "heating engineer boiler"),
    ("kitchen_fitter", "general_contractor", "kitchen fitter"),
    ("bathroom_fitter", "general_contractor", "bathroom fitter"),
    ("tiler", "general_contractor", "tiler tiling services"),
    ("decorator", "painter", "decorator painting services") ]

/-- `map_business_type_to_google_type` (server.py lines 268-288):
dictionary get on the lowered category with the generic-contractor
fallback carrying the category string itself as keyword. -/
def map_business_type_to_google_type (business_type : String) :
    String × String :=
  (type_mapping.lookup (pyLowerS business_type)).getD
    ("general_contractor", business_type)

/-- The industry display-label table of `process_place_details`
(server.py lines 306-322). -/
def industry_mapping : List (String × String) :=
  [ ("carpenter", "Carpenters & Joiners"),
    ("builder", "General Builders"),
    ("electrician", "Electricians"),
    ("plumber", "Plumbers"),
    ("roofer", "Roofing Specialists"),
    ("painter", "Decorators"),
    ("landscaper", "Landscapers"),
    ("plasterer", "Plasterers"),
    ("groundworker", "Groundworkers"),
    ("bricklayer", "Bricklayers & Stonemasons"),
    ("heating_engineer", "Heating Engineers"),
    ("kitchen_fitter", "Kitchen Fitters"),
    ("bathroom_fitter", "Property Maintenance"),
    ("tiler", "Tilers"),
    ("decorator", "Decorators") ]

/-- The `primary_industry` value of `process_place_details` (line 340):
dictionary get on the lowered category, defaulting to the title-cased
category string. -/
def industryLabel (business_type : String) : String :=
  (industry_mapping.lookup (pyLowerS business_type)).getD
    (pyTitle business_type)

/-- Uppercase Latin letter, as matched by the class A-Z of the UK postcode
regex (the regex is applied to the uppercased address). -/
def ukUpper (c : Char) : Bool := 'A' ≤ c && c ≤ 'Z'

/-- The class 0-9R of the UK postcode regex. -/
def ukDigitR (c : Char) : Bool := c.isDigit || c = 'R'

/-- The class 0-9A-Z of the UK postcode regex. -/
def ukDigitUpper (c : Char) : Bool := c.isDigit || ukUpper c

/-- Match the tail digit-letter-letter of the postcode regex, returning the
number of characters consumed. -/
def ukMatchEnd (s : List Char) : Option Nat :=
  match s with
  | d :: a :: b :: _ => if d.isDigit && ukUpper a && ukUpper b then some 3 else none
  | _ => none

/-- Match the optional space then the tail, greedily (space consumed first,
backtracking to no space). -/
def ukMatchOptSpace (s : List Char) : Option Nat :=
  match s with
  | ' ' :: rest =>
    (match ukMatchEnd rest with
     | some n => some (n + 1)
     | none => ukMatchEnd s)
  | _ => ukMatchEnd s

/-- Match the optional 0-9A-Z character then the rest, greedily. -/
def ukMatchOpt2 (s : List Char) : Option Nat :=
  match s with
  | c :: rest =>
    if ukDigitUpper c then
      (match ukMatchOptSpace rest with
       | some n => some (n + 1)
       | none => ukMatchOptSpace s)
    else ukMatchOptSpace s
  | [] => ukMatchOptSpace s

/-- Match the 0-9R character then the remainder of the pattern. -/
def ukMatchAfterLetters (s : List Char) : Option Nat :=
  match s with
  | c :: rest =>
    if ukDigitR c then (ukMatchOpt2 rest).map (· + 1) else none
  | [] => none

/-- Try the whole postcode pattern at the head of `s`, trying two leading
letters before one (greedy repetition with backtracking). -/
def ukTryMatch (s : List Char) : Option Nat :=
  match s with
  | a :: rest =>
    if ukUpper a then
      match rest with
      | b :: rest2 =>
        if ukUpper b then
          match ukMatchAfterLetters rest2 with
          | some n => some (n + 2)
          | none => (ukMatchAfterLetters rest).map (· + 1)
        else (ukMatchAfterLetters rest).map (· + 1)
      | [] => (ukMatchAfterLetters rest).map (· + 1)
    else none
  | [] => none

/-- 're.search': scan start positions left to right, returning the first
(leftmost, then greedy) match. -/
def ukSearchPostcode : List Char → Option (List Char)
  | [] => none
  | c :: rest =>
    match ukTryMatch (c :: rest) with
    | some n => some ((c :: rest).take n)
    | none => ukSearchPostcode rest

/-- `extract_postcode_from_address` (server.py lines 261-266): regex search
for a UK postcode in the uppercased address. -/
def extract_postcode_from_address (address : String) : Option String :=
  (ukSearchPostcode (pyUpper address.data)).map (fun cs => ⟨cs⟩)

/-- A company item of the registry name search (the fields the code reads:
`title`, `company_number`, and the registered postal code nested under
`address`; a missing field is `none`). -/
structure CHCandidate where
  title : String
  company_number : String
  postal_code : Option String
deriving DecidableEq

/-- An officer item of the registry officers list (the fields the code
reads). -/
structure Officer where
  name : Option String
  officer_role : Option String
  appointed_on : Option String
deriving DecidableEq

/-- A registry company profile (the fields the code reads; a missing
string field is `none`, a missing list or dict field defaults to empty as
in the corresponding `profile.get` call). -/
structure CHProfile where
  company_name : Option String
  company_status : Option String
  registered_office_address : List (String × String)
  sic_codes : List String
  date_of_creation : Option String
deriving DecidableEq

/-- A reduced director entry as built in the officers loop
(server.py lines 223-228). -/
structure DirectorEntry where
  name : String
  role : String
  appointed_on : String
deriving DecidableEq

/-- The `CompaniesHouseData` pydantic model as populated by
`enhance_with_companies_house_data` (server.py lines 230-238). -/
structure CompaniesHouseData where
  company_number : String
  official_name : String
  company_status : String
  registered_address : List (String × String)
  sic_codes : List String
  directors : List DirectorEntry
  incorporation_date : String
deriving DecidableEq

/-- Reduce an officer item to the stored director entry, with the empty
string defaults of the `officer.get` calls. -/
def reduceOfficer (o : Officer) : DirectorEntry :=
  ⟨o.name.getD "", o.officer_role.getD "", o.appointed_on.getD ""⟩

/-- 'p.replace(space, empty).upper()' as used by the postcode-bonus
comparison. -/
def squashUpper (s : String) : List Char :=
  pyUpper (s.data.filter (fun c => c ≠ ' '))

/-- Python substring membership 'pat in hay' on character lists. -/
def containsSub (hay pat : List Char) : Bool :=
  match hay with
  | [] => pat = []
  | _ :: rest => pat.isPrefixOf hay || containsSub rest pat

/-- The score given to one registry candidate (server.py lines 194-199):
name similarity plus a flat 0.3 bonus when both postcodes are truthy
(present and non-empty) and the search postcode is a space-insensitive,
case-insensitive substring of the candidate's registered postal code. -/
def candidateScore (business_name : String) (postcode : Option String)
    (c : CHCandidate) : ℚ :=
  let sim := calculate_name_similarity business_name c.title
  match postcode, c.postal_code with
  | some p, some q =>
    if p ≠ "" ∧ q ≠ "" ∧ containsSub (squashUpper q) (squashUpper p) then
      sim + 3 / 10
    else sim
  | _, _ => sim

/-- One step of the best-match loop (server.py lines 193-203): replace the
current best only when the score strictly improves it and strictly exceeds
the 0.4 threshold. -/
def bestStep (business_name : String) (postcode : Option String)
    (acc : Option CHCandidate × ℚ) (c : CHCandidate) :
    Option CHCandidate × ℚ :=
  let s := candidateScore business_name postcode c
  if s > acc.2 ∧ s > 2 / 5 then (some c, s) else acc

/-- The whole best-match loop, started from no match and similarity 0. -/
def findBestMatch (business_name : String) (postcode : Option String)
    (companies : List CHCandidate) : Option CHCandidate × ℚ :=
  companies.foldl (bestStep business_name postcode) (none, 0)

/-- The outcomes of the registry calls used by one enrichment: the name
search (which catches its own errors and returns an empty list), and the
profile and officers fetches issued through 'gather' with exceptions
returned as values (`Except.error`).  A profile response that is absent or
falsy is `Except.ok none`. -/
structure RegistryEnv where
  chSearch : String → List CHCandidate
  chProfile : String → Except Unit (Option CHProfile)
  chOfficers : String → Except Unit (List Officer)

/-- The `CompaniesHouseData` construction of server.py lines 230-238,
from the winning candidate, its profile, and the processed directors. -/
def assembleCompaniesHouseData (best : CHCandidate) (profile : CHProfile)
    (directors : List DirectorEntry) : CompaniesHouseData :=
  { company_number := best.company_number
    official_name := profile.company_name.getD ""
    company_status := profile.company_status.getD ""
    registered_address := profile.registered_office_address
    sic_codes := profile.sic_codes
    directors := directors
    incorporation_date := profile.date_of_creation.getD "" }

/-- `enhance_with_companies_house_data` (server.py lines 180-242): search
the registry (items capped at 10 by the request parameters), pick the best
candidate above the threshold, fetch profile and officers, treat a failed
or falsy profile as no match, degrade failed officers to no directors,
truncate officers to the first 5.  The surrounding catch-all returns
`none`; no branch of this model raises. -/
def enhance_with_companies_house_data (reg : RegistryEnv)
    (business_name : String) (postcode : Option String) :
    Option CompaniesHouseData :=
  let companies := reg.chSearch business_name
  if companies = [] then none
  else
    match (findBestMatch business_name postcode companies).1 with
    | none => none
    | some best =>
      match reg.chProfile best.company_number with
      | .error _ => none
      | .ok none => none
      | .ok (some profile) =>
        let directors :=
          match reg.chOfficers best.company_number with
          | .error _ => []
          | .ok officers => (officers.take 5).map reduceOfficer
        some (assembleCompaniesHouseData best profile directors)

/-- A coordinate pair as produced by the geocoder or the postcode table. -/
structure Coord where
  lat : ℚ
  lng : ℚ
deriving DecidableEq

/-- A nearby-search result item (the fields the code reads: the place id
and the geometry location). -/
structure Place where
  place_id : String
  lat : ℚ
  lng : ℚ
deriving DecidableEq

/-- The place-details result fields read by `process_place_details`
(server.py lines 294-303, 336-359). -/
structure PlaceDetails where
  name : Option String
  formatted_address : Option String
  website : Option String
  formatted_phone_number : Option String
  rating : Option ℚ
  user_ratings_total : Option Int
deriving DecidableEq

/-- One nearby-search response: the result items and whether the response
carries a continuation token. -/
structure PageResult where
  results : List Place
  next_page_token : Bool
deriving DecidableEq

/-- The pages the provider serves for one category search: the initial
call (which may raise, skipping the category) and the successive
token-driven fetches (an erroneous entry models a pagination failure,
which breaks that category's loop). -/
structure CategoryPages where
  initial : Except Unit PageResult
  next : List (Except Unit PageResult)

/-- All external collaborators of one search request: registry, place
details, geocoder, offline postcode table, nearby search, and the clock
date used for `date_of_scraping`. -/
structure Env extends RegistryEnv where
  placeDetails : String → Except Unit PlaceDetails
  geocode : String → List Coord
  postcodeQuery : String → Except Unit Coord
  nearbySearch : Coord → Int → String → String → CategoryPages
  today : String

/-- The `BusinessInfo` pydantic model (server.py lines 67-83), as
constructed at lines 336-359. -/
structure BusinessInfo where
  place_id : String
  company_name : String
  tradesperson_name : Option String
  primary_industry : String
  full_address : String
  postcode : Option String
  website_url : Option String
  phone_number : Option String
  email_address : Option String
  source_url : String
  date_of_scraping : String
  rating : Option ℚ
  total_ratings : Option Int
  loc_lng : ℚ
  loc_lat : ℚ
  companies_house_data : Option CompaniesHouseData
  verification_status : String
deriving DecidableEq

/-- `process_place_details` (server.py lines 290-362): fetch the details
of a place, optionally enrich with the registry, and build the
`BusinessInfo`; any exception (modelled by a failing details fetch)
returns `none`. -/
def process_place_details (env : Env) (place : Place)
    (business_type : String) (enhance_with_ch : Bool) :
    Option BusinessInfo :=
  match env.placeDetails place.place_id with
  | .error _ => none
  | .ok details =>
    let address := details.formatted_address.getD ""
    let postcode := extract_postcode_from_address address
    let company_name := details.name.getD "Unknown"
    let companies_house_data :=
      if enhance_with_ch then
        enhance_with_companies_house_data env.toRegistryEnv
          company_name postcode
      else none
    let verification_status :=
      match companies_house_data with
      | none => "unverified"
      | some chd =>
        if chd.company_status = "active" then "verified" else "inactive"
    some
      { place_id := place.place_id
        company_name := company_name
        tradesperson_name := none
        primary_industry := industryLabel business_type
        full_address := address
        postcode := postcode
        website_url := details.website
        phone_number := details.formatted_phone_number
        email_address := none
        source_url := "Google Places API + Companies House API"
        date_of_scraping := env.today
        rating := details.rating
        total_ratings := details.user_ratings_total
        loc_lng := place.lng
        loc_lat := place.lat
        companies_house_data := companies_house_data
        verification_status := verification_status }

/-- The mutable state of the search loop: the `processed_place_ids` set
(as a list with membership checks) and the accumulated `all_businesses`
list. -/
structure SearchState where
  seen : List String
  businesses : List BusinessInfo

/-- The body of the per-result loop (server.py lines 415-426 and 437-447):
for a result not already seen, record its id and append the processed
business when the details call succeeds.  The MongoDB cache write that
follows each append swallows its own errors and does not affect the
state. -/
def processPlace (env : Env) (business_type : String)
    (enhance_with_ch : Bool) (st : SearchState) (place : Place) :
    SearchState :=
  if place.place_id ∈ st.seen then st
  else
    { seen := place.place_id :: st.seen
      businesses :=
        match process_place_details env place business_type
            enhance_with_ch with
        | some b => st.businesses ++ [b]
        | none => st.businesses }

/-- The per-page result loop: fold the loop body over the page's result
items. -/
def processResults (env : Env) (business_type : String)
    (enhance_with_ch : Bool) (st : SearchState) (places : List Place) :
    SearchState :=
  places.foldl (processPlace env business_type enhance_with_ch) st

/-- The pagination while-loop (server.py lines 429-450): continue while
the previous response carried a token and the global business count is
below `max_results`; a failing fetch (or an exhausted environment) breaks
the loop. -/
def runPagination (env : Env) (business_type : String)
    (enhance_with_ch : Bool) (max_results : Int) (st : SearchState)
    (hasToken : Bool) (pages : List (Except Unit PageResult)) :
    SearchState :=
  if hasToken ∧ (st.businesses.length : Int) < max_results then
    match pages with
    | [] => st
    | .error _ :: _ => st
    | .ok page :: rest =>
      runPagination env business_type enhance_with_ch max_results
        (processResults env business_type enhance_with_ch st page.results)
        page.next_page_token rest
  else st

/-- The `BusinessSearchRequest` pydantic model (server.py lines 51-56). -/
structure BusinessSearchRequest where
  location : String
  radius : Int := 20000
  business_types : List String :=
    ["carpenter", "builder", "electrician", "plumber"]
  max_results : Int := 50
  enhance_with_companies_house : Bool := true
deriving DecidableEq

/-- One category iteration of the search loop (server.py lines 402-454):
map the category, issue the nearby search (a failure skips the category),
process the first page, then paginate. -/
def runCategory (env : Env) (req : BusinessSearchRequest) (coords : Coord)
    (st : SearchState) (business_type : String) : SearchState :=
  let mapped := map_business_type_to_google_type business_type
  let pages := env.nearbySearch coords req.radius mapped.1 mapped.2
  match pages.initial with
  | .error _ => st
  | .ok page =>
    runPagination env business_type req.enhance_with_companies_house
      req.max_results
      (processResults env business_type req.enhance_with_companies_house
        st page.results)
      page.next_page_token pages.next

/-- The whole category loop, started from the empty seen set and empty
result list. -/
def searchAll (env : Env) (req : BusinessSearchRequest) (coords : Coord) :
    SearchState :=
  req.business_types.foldl (runCategory env req coords) ⟨[], []⟩

/-- A raised FastAPI `HTTPException` with its status code and detail. -/
structure HTTPError where
  status : Nat
  detail : String
deriving DecidableEq

/-- Python truthiness of a string: non-empty. -/
def pyIsAlnumNonEmpty (s : List Char) : Bool :=
  s ≠ [] && s.all Char.isAlphanum

/-- The postcode-format classification of `search_businesses`
(server.py line 388): after removing spaces, alphanumeric (non-empty, as
Python `isalnum` is false on the empty string) and at most 8 characters
long. -/
def isPostcodeFormat (location : String) : Bool :=
  let squashed := location.data.filter (fun c => c ≠ ' ')
  pyIsAlnumNonEmpty squashed && squashed.length ≤ 8

/-- `convert_postcode_to_coordinates` (server.py lines 245-259): uppercase
and strip the input, query the offline table; any failure to produce
coordinates becomes an `HTTPException` with status 400.  The varying
Python exception text inside the detail is abstracted to the fixed
prefix. -/
def convert_postcode_to_coordinates (env : Env) (postcode : String) :
    Except HTTPError Coord :=
  match env.postcodeQuery ⟨pyStrip (pyUpper postcode.data)⟩ with
  | .ok c => .ok c
  | .error _ => .error ⟨400, "Postcode conversion error"⟩

/-- The location-resolution prefix of `search_businesses` (server.py
lines 384-396): postcode-format inputs go to the offline table, everything
else to the geocoder with the country suffix appended; an empty geocode
result raises an `HTTPException` with status 400. -/
def resolveSearchLocation (env : Env) (req : BusinessSearchRequest) :
    Except HTTPError Coord :=
  if isPostcodeFormat req.location then
    convert_postcode_to_coordinates env req.location
  else
    match env.geocode (req.location ++ ", UK") with
    | [] => .error ⟨400, "Location not found"⟩
    | c :: _ => .ok c

/-- The `SearchResponse` pydantic model (server.py lines 85-90). -/
structure SearchResponse where
  success : Bool
  total_found : Nat
  businesses : List BusinessInfo
  search_location : Coord
  search_params : BusinessSearchRequest
deriving DecidableEq

/-- Python list slicing 'l[:k]' for an `int` bound: for a non-negative
bound take that many elements, for a negative bound drop that many from
the end (clamped at zero). -/
def pyTake (k : Int) (l : List BusinessInfo) : List BusinessInfo :=
  if 0 ≤ k then l.take k.toNat else l.take (l.length - (-k).toNat)

/-- The `search_businesses` endpoint (server.py lines 380-469).  The whole
body sits in a try whose 'except Exception' catches every raised
exception — including the `HTTPException` of the resolution step, since
`HTTPException` subclasses `Exception` — and re-raises it with status
500.  On success the accumulated results are truncated to `max_results`
and wrapped in a `SearchResponse`. -/
def search_businesses (env : Env) (req : BusinessSearchRequest) :
    Except HTTPError SearchResponse :=
  match resolveSearchLocation env req with
  | .error e =>
    .error ⟨500, "Search failed: " ++ toString e.status ++ ": " ++ e.detail⟩
  | .ok coords =>
    let limited := pyTake req.max_results (searchAll env req coords).businesses
    .ok
      { success := true
        total_found := limited.length
        businesses := limited
        search_location := coords
        search_params := req }

/-- The status code of an endpoint outcome: the error status, or `none`
for a 200 response. -/
def statusOf (r : Except HTTPError SearchResponse) : Option Nat :=
  match r with
  | .error e => some e.status
  | .ok _ => none

/-- The business list of an endpoint outcome (empty on error). -/
def businessesOf (r : Except HTTPError SearchResponse) :
    List BusinessInfo :=
  match r with
  | .error _ => []
  | .ok resp => resp.businesses

/-- A document of the `businesses` MongoDB collection: the business fields
written by the update plus the refreshed timestamp. -/
structure StoredDoc where
  info : BusinessInfo
  last_updated : Nat
deriving DecidableEq

/-- `cache_business_info` (server.py lines 364-373): an `update_one` with
filter on `place_id`, a set of every field of the record plus the
`last_updated` timestamp, and `upsert=True` — replace the matching
document, or append a new one when no document matches.  Since the stored
schema consists exactly of the written fields, the set is a full-document
replacement. -/
def cache_business_info (store : List StoredDoc) (b : BusinessInfo)
    (now : Nat) : List StoredDoc :=
  match store with
  | [] => [⟨b, now⟩]
  | d :: rest =>
    if d.info.place_id = b.place_id then ⟨b, now⟩ :: rest
    else d :: cache_business_info rest b now

/-- One search-loop state extends another: the seen set only grows, the
business list only gains a suffix, and every gained business carries a
place id that was fresh for the smaller state and is recorded in the
larger one, the gained ids being pairwise distinct. -/
def StateExtends (st st' : SearchState) : Prop :=
  (∀ x ∈ st.seen, x ∈ st'.seen) ∧
  ∃ delta, st'.businesses = st.businesses ++ delta ∧
    (∀ b ∈ delta, b.place_id ∈ st'.seen ∧ b.place_id ∉ st.seen) ∧
    (delta.map (fun b => b.place_id)).Nodup

/-- An environment in which every external collaborator fails or is
empty. -/
def envAllFail : Env :=
  { chSearch := fun _ => []
    chProfile := fun _ => .error ()
    chOfficers := fun _ => .error ()
    placeDetails := fun _ => .error ()
    geocode := fun _ => []
    postcodeQuery := fun _ => .error ()
    nearbySearch := fun _ _ _ _ => ⟨.error (), []⟩
    today := "2026-10-12" }

/-- A free-text location the geocoder of `envAllFail` cannot resolve. -/
def reqUnresolvableFree : BusinessSearchRequest :=
  { location := "Atlantis upon Nowhere" }

/-- A postcode-shaped location the offline table of `envAllFail` cannot
resolve. -/
def reqUnresolvablePostcode : BusinessSearchRequest :=
  { location := "ZZ99 9ZZ" }

/-- An environment whose geocoder resolves every query (as the real
geocoder does for the query built from the empty location). -/
def envGeocodeUK : Env :=
  { envAllFail with geocode := fun _ => [⟨54, -2⟩] }

/-- The empty-location request. -/
def reqEmptyLocation : BusinessSearchRequest := { location := "" }

/-- An environment serving one place for any nearby search, with details
but no registry data. -/
def envOnePlace : Env :=
  { envAllFail with
    postcodeQuery := fun _ => .ok ⟨51, 0⟩
    placeDetails := fun _ =>
      .ok ⟨some "Wizard Roofs", some "1 High St", none, none, none, none⟩
    nearbySearch := fun _ _ _ _ => ⟨.ok ⟨[⟨"p1", 51, 0⟩], false⟩, []⟩ }

/-- A request for the unrecognized category of the spec's example, without
registry enrichment. -/
def reqRoofWizard : BusinessSearchRequest :=
  { location := "AB1 2CD", business_types := ["roof_wizard"],
    enhance_with_companies_house := false }

/-- An environment that resolves the postcode and serves nothing else. -/
def envPostcodeOnly : Env :=
  { envAllFail with postcodeQuery := fun _ => .ok ⟨51, 0⟩ }

/-- A request with no categories, used to exercise the truncation theorem
at a concrete point. -/
def reqNoCategories : BusinessSearchRequest :=
  { location := "AB1 2CD", business_types := [] }

/-- The response `envPostcodeOnly` produces for `reqNoCategories`. -/
def respNoCategories : SearchResponse :=
  { success := true, total_found := 0, businesses := [],
    search_location := ⟨51, 0⟩, search_params := reqNoCategories }

/-- A registry candidate whose title normalises to the empty word set, so
its score is 0 whatever the business name. -/
def candZeroScore : CHCandidate := ⟨"", "00000001", none⟩

/-- A registry environment offering only the zero-score candidate. -/
def regOnlyZero : RegistryEnv :=
  ⟨fun _ => [candZeroScore], fun _ => .error (), fun _ => .error ()⟩

/-- A registry candidate whose title is the searched name itself. -/
def candExact : CHCandidate := ⟨"Acme", "00000002", none⟩

/-- The profile the registry serves for `candExact`. -/
def profExact : CHProfile :=
  ⟨some "ACME LIMITED", some "active", [], ["41201"], some "2001-01-01"⟩

/-- Six officers, one more than the truncation limit. -/
def officersSix : List Officer :=
  [ ⟨some "A One", some "director", some "2001-01-01"⟩,
    ⟨some "B Two", some "director", some "2002-01-01"⟩,
    ⟨some "C Three", some "secretary", some "2003-01-01"⟩,
    ⟨some "D Four", some "director", some "2004-01-01"⟩,
    ⟨some "E Five", some "director", some "2005-01-01"⟩,
    ⟨some "F Six", some "director", some "2006-01-01"⟩ ]

/-- A registry environment in which the exact-name candidate matches and
both follow-up fetches succeed. -/
def regFullSuccess : RegistryEnv :=
  ⟨fun _ => [candExact], fun _ => .ok (some profExact),
    fun _ => .ok officersSix⟩

/-- A concrete business record for the upsert theorems. -/
def bizSample : BusinessInfo :=
  { place_id := "cafe-1", company_name := "Acme Builders",
    tradesperson_name := none, primary_industry := "General Builders",
    full_address := "1 High St", postcode := none, website_url := none,
    phone_number := none, email_address := none,
    source_url := "Google Places API + Companies House API",
    date_of_scraping := "2026-10-12", rating := none, total_ratings := none,
    loc_lng := 0, loc_lat := 51, companies_house_data := none,
    verification_status := "unverified" }

/-- When either normalised word set is empty the similarity is the guard
value 0. -/
lemma sim_eq_zero_of_empty {name1 name2 : String}
    (h : wordSet name1 = ∅ ∨ wordSet name2 = ∅) :
    calculate_name_similarity name1 name2 = 0 := by
  unfold calculate_name_similarity
  simp only [if_pos h]

/-- When the two normalised word sets are equal and non-empty the
similarity is exactly 1. -/
lemma sim_eq_one_of_wordSet_eq {name1 name2 : String}
    (h : wordSet name2 = wordSet name1) (hne : wordSet name1 ≠ ∅) :
    calculate_name_similarity name1 name2 = 1 := by
  unfold calculate_name_similarity
  rw [h]
  rw [if_neg (by simp [hne]), Finset.inter_self, Finset.union_self,
    if_neg hne]
  rw [div_self]
  simpa [Finset.card_eq_zero] using hne

lemma stateExtends_refl (st : SearchState) : StateExtends st st :=
  ⟨fun _ h => h, [], by simp, by simp, by simp⟩

lemma stateExtends_trans {s1 s2 s3 : SearchState}
    (h12 : StateExtends s1 s2) (h23 : StateExtends s2 s3) :
    StateExtends s1 s3 := by
  obtain ⟨hs12, d1, hb1, hd1, hn1⟩ := h12
  obtain ⟨hs23, d2, hb2, hd2, hn2⟩ := h23
  refine ⟨fun x hx => hs23 x (hs12 x hx), d1 ++ d2,
    by rw [hb2, hb1, List.append_assoc], ?_, ?_⟩
  · intro b hb
    rcases List.mem_append.mp hb with h | h
    · exact ⟨hs23 _ (hd1 b h).1, (hd1 b h).2⟩
    · exact ⟨(hd2 b h).1, fun hc => (hd2 b h).2 (hs12 _ hc)⟩
  · rw [List.map_append]
    refine hn1.append hn2 ?_
    intro x hx1 hx2
    obtain ⟨b1, hb1m, rfl⟩ := List.mem_map.mp hx1
    obtain ⟨b2, hb2m, heq⟩ := List.mem_map.mp hx2
    exact (hd2 b2 hb2m).2 (heq ▸ (hd1 b1 hb1m).1)

lemma ppd_place_id {env : Env} {place : Place} {business_type : String}
    {enh : Bool} {b : BusinessInfo}
    (h : process_place_details env place business_type enh = some b) :
    b.place_id = place.place_id := by
  unfold process_place_details at h
  split at h
  · exact absurd h (by simp)
  · have h' := Option.some.inj h
    subst h'
    rfl

lemma processPlace_extends (env : Env) (bt : String) (enh : Bool)
    (st : SearchState) (place : Place) :
    StateExtends st (processPlace env bt enh st place) := by
  unfold processPlace
  by_cases hmem : place.place_id ∈ st.seen
  · rw [if_pos hmem]; exact stateExtends_refl st
  · rw [if_neg hmem]
    refine ⟨fun x hx => List.mem_cons_of_mem _ hx, ?_⟩
    cases hppd : process_place_details env place bt enh with
    | none => exact ⟨[], by simp [hppd], by simp, by simp⟩
    | some b =>
      refine ⟨[b], by simp [hppd], ?_, by simp⟩
      intro b' hb'
      rw [List.mem_singleton] at hb'
      subst hb'
      rw [ppd_place_id hppd]
      exact ⟨List.mem_cons_self _ _, hmem⟩

lemma processResults_extends (env : Env) (bt : String) (enh : Bool) :
    ∀ (places : List Place) (st : SearchState),
      StateExtends st (processResults env bt enh st places) := by
  intro places
  induction places with
  | nil => intro st; exact stateExtends_refl st
  | cons place rest ih =>
    intro st
    exact stateExtends_trans (processPlace_extends env bt enh st place)
      (ih (processPlace env bt enh st place))

lemma runPagination_extends (env : Env) (bt : String) (enh : Bool)
    (maxr : Int) :
    ∀ (pages : List (Except Unit PageResult)) (st : SearchState)
      (tok : Bool),
      StateExtends st (runPagination env bt enh maxr st tok pages) := by
  intro pages
  induction pages with
  | nil =>
    intro st tok
    rw [runPagination.eq_def]
    split
    · exact stateExtends_refl _
    · exact stateExtends_refl _
  | cons pg rest ih =>
    intro st tok
    rw [runPagination.eq_def]
    split
    · cases pg with
      | error e => exact stateExtends_refl _
      | ok page =>
        exact stateExtends_trans
          (processResults_extends env bt enh page.results st)
          (ih _ page.next_page_token)
    · exact stateExtends_refl _

lemma runCategory_extends (env : Env) (req : BusinessSearchRequest)
    (coords : Coord) (st : SearchState) (bt : String) :
    StateExtends st (runCategory env req coords st bt) := by
  unfold runCategory
  simp only []
  split
  · exact stateExtends_refl st
  · exact stateExtends_trans
      (processResults_extends env bt req.enhance_with_companies_house _ st)
      (runPagination_extends env bt req.enhance_with_companies_house
        req.max_results _ _ _)

lemma foldlCategories_extends (env : Env) (req : BusinessSearchRequest)
    (coords : Coord) :
    ∀ (cats : List String) (st : SearchState),
      StateExtends st (cats.foldl (runCategory env req coords) st) := by
  intro cats
  induction cats with
  | nil => intro st; exact stateExtends_refl st
  | cons c rest ih =>
    intro st
    exact stateExtends_trans (runCategory_extends env req coords st c)
      (ih (runCategory env req coords st c))

lemma searchAll_nodup (env : Env) (req : BusinessSearchRequest)
    (coords : Coord) :
    ((searchAll env req coords).businesses.map
      (fun b => b.place_id)).Nodup := by
  obtain ⟨-, delta, hb, -, hnd⟩ :=
    foldlCategories_extends env req coords req.business_types ⟨[], []⟩
  unfold searchAll
  rw [hb]
  simpa using hnd

lemma pyTake_sublist (k : Int) (l : List BusinessInfo) :
    (pyTake k l).Sublist l := by
  unfold pyTake
  split
  · exact List.take_sublist _ _
  · exact List.take_sublist _ _

lemma bestFold_some {business_name : String} {postcode : Option String} :
    ∀ (l : List CHCandidate) (acc : Option CHCandidate × ℚ),
      (∀ c, acc.1 = some c → candidateScore business_name postcode c > 2 / 5) →
      ∀ c, (l.foldl (bestStep business_name postcode) acc).1 = some c →
        candidateScore business_name postcode c > 2 / 5 := by
  intro l
  induction l with
  | nil => intro acc hacc c hc; exact hacc c hc
  | cons x rest ih =>
    intro acc hacc c hc
    rw [List.foldl_cons] at hc
    refine ih (bestStep business_name postcode acc x) ?_ c hc
    intro c' hc'
    unfold bestStep at hc'
    by_cases hcond : candidateScore business_name postcode x > acc.2 ∧
        candidateScore business_name postcode x > 2 / 5
    · rw [if_pos hcond] at hc'
      have : x = c' := by simpa using hc'
      subst this
      exact hcond.2
    · rw [if_neg hcond] at hc'
      exact hacc c' hc'

lemma bestFold_const {business_name : String} {postcode : Option String} :
    ∀ (l : List CHCandidate) (acc : Option CHCandidate × ℚ),
      (∀ c ∈ l, candidateScore business_name postcode c ≤ 2 / 5) →
      l.foldl (bestStep business_name postcode) acc = acc := by
  intro l
  induction l with
  | nil => intro acc _; rfl
  | cons x rest ih =>
    intro acc h
    have hx : candidateScore business_name postcode x ≤ 2 / 5 :=
      h x (List.mem_cons_self _ _)
    have hstep : bestStep business_name postcode acc x = acc := by
      unfold bestStep
      rw [if_neg]
      intro hcond
      exact absurd hcond.2 (not_lt.mpr hx)
    rw [List.foldl_cons, hstep]
    exact ih acc (fun c hc => h c (List.mem_cons_of_mem _ hc))

lemma enhance_eq_of_sel {reg : RegistryEnv} {business_name : String}
    {postcode : Option String} {c : CHCandidate}
    (hsel : (findBestMatch business_name postcode
      (reg.chSearch business_name)).1 = some c) :
    enhance_with_companies_house_data reg business_name postcode =
      (match reg.chProfile c.company_number with
       | .error _ => none
       | .ok none => none
       | .ok (some profile) =>
         some (assembleCompaniesHouseData c profile
           (match reg.chOfficers c.company_number with
            | .error _ => []
            | .ok officers => (officers.take 5).map reduceOfficer))) := by
  unfold enhance_with_companies_house_data
  simp only []
  have hne : reg.chSearch business_name ≠ [] := by
    intro hnil
    rw [hnil] at hsel
    simp [findBestMatch] at hsel
  rw [if_neg hne, hsel]

lemma cache_mem_pid :
    ∀ (store : List StoredDoc) (b : BusinessInfo) (t : Nat) (x : String),
      x ∈ (cache_business_info store b t).map (fun d => d.info.place_id) →
      x = b.place_id ∨ x ∈ store.map (fun d => d.info.place_id) := by
  intro store
  induction store with
  | nil =>
    intro b t x hx
    simp [cache_business_info] at hx
    exact Or.inl hx
  | cons d rest ih =>
    intro b t x hx
    unfold cache_business_info at hx
    by_cases hd : d.info.place_id = b.place_id
    · rw [if_pos hd] at hx
      rw [List.map_cons] at hx
      rcases List.mem_cons.mp hx with rfl | hmem
      · exact Or.inl rfl
      · exact Or.inr (by rw [List.map_cons]; exact List.mem_cons_of_mem _ hmem)
    · rw [if_neg hd] at hx
      rw [List.map_cons] at hx
      rcases List.mem_cons.mp hx with rfl | hmem
      · exact Or.inr (by rw [List.map_cons]; exact List.mem_cons_self _ _)
      · rcases ih b t x hmem with h | h
        · exact Or.inl h
        · exact Or.inr (by rw [List.map_cons]; exact List.mem_cons_of_mem _ h)

lemma cache_filter :
    ∀ (store : List StoredDoc) (b : BusinessInfo) (t : Nat),
      (store.map (fun d => d.info.place_id)).Nodup →
      (cache_business_info store b t).filter
        (fun d => d.info.place_id == b.place_id) = [⟨b, t⟩] := by
  intro store
  induction store with
  | nil => intro b t _; simp [cache_business_info]
  | cons d rest ih =>
    intro b t h
    rw [List.map_cons, List.nodup_cons] at h
    unfold cache_business_info
    by_cases hd : d.info.place_id = b.place_id
    · rw [if_pos hd]
      rw [List.filter_cons]
      have hrest : rest.filter (fun d => d.info.place_id == b.place_id) = [] := by
        rw [List.filter_eq_nil_iff]
        intro d' hd'
        simp only [beq_iff_eq]
        intro he
        exact h.1 (List.mem_map.mpr ⟨d', hd', by rw [he, hd]⟩)
      simp only [beq_self_eq_true, if_pos]
      rw [hrest]
    · rw [if_neg hd]
      rw [List.filter_cons]
      have : (d.info.place_id == b.place_id) = false := beq_eq_false_iff_ne.mpr hd
      rw [this]
      simp only [Bool.false_eq_true, if_neg, ite_false]
      exact ih b t h.2

lemma cache_pids_nodup :
    ∀ (store : List StoredDoc) (b : BusinessInfo) (t : Nat),
      (store.map (fun d => d.info.place_id)).Nodup →
      ((cache_business_info store b t).map
        (fun d => d.info.place_id)).Nodup := by
  intro store
  induction store with
  | nil => intro b t _; simp [cache_business_info]
  | cons d rest ih =>
    intro b t h
    rw [List.map_cons, List.nodup_cons] at h
    unfold cache_business_info
    by_cases hd : d.info.place_id = b.place_id
    · rw [if_pos hd]
      rw [List.map_cons, List.nodup_cons]
      exact ⟨by rw [show (⟨b, t⟩ : StoredDoc).info.place_id = d.info.place_id
          from hd.symm]; exact h.1, h.2⟩
    · rw [if_neg hd]
      rw [List.map_cons, List.nodup_cons]
      refine ⟨?_, ih b t h.2⟩
      intro hmem
      rcases cache_mem_pid rest b t _ hmem with he | he
      · exact hd he
      · exact h.1 he

lemma cache_length_of_mem :
    ∀ (store : List StoredDoc) (b : BusinessInfo) (t : Nat),
      b.place_id ∈ store.map (fun d => d.info.place_id) →
      (cache_business_info store b t).length = store.length := by
  intro store
  induction store with
  | nil => intro b t hmem; simp at hmem
  | cons d rest ih =>
    intro b t hmem
    unfold cache_business_info
    by_cases hd : d.info.place_id = b.place_id
    · rw [if_pos hd]; simp
    · rw [if_neg hd]
      rw [List.map_cons, List.mem_cons] at hmem
      rcases hmem with he | hmem
      · exact absurd he.symm hd
      · simp [ih b t hmem]

/-- C1: the spec says a search request whose location cannot be resolved
(postcode lookup failure or empty geocode result) fails with status 400,
not 500.  The code raises an HTTPException with status 400 inside the
endpoint's try block (server.py lines 259 and 395), but the blanket
'except Exception' at line 467 catches that very exception — FastAPI's
HTTPException subclasses Exception — and re-raises it with status 500, so
both unresolvable-location paths surface as 500.  The first conjunct shows
the resolution step itself produces the 400; the last two show the
endpoint returns 500 on the free-text path and on the postcode path. -/
theorem C1_unresolvable_location_surfaces_500 :
    resolveSearchLocation envAllFail reqUnresolvableFree =
      .error ⟨400, "Location not found"⟩ ∧
    statusOf (search_businesses envAllFail reqUnresolvableFree) = some 500 ∧
    statusOf (search_businesses envAllFail reqUnresolvablePostcode) =
      some 500 :=
  ⟨rfl, rfl, rfl⟩

/-- C2: the spec says a search with the empty location always returns a
4xx and never a 200.  In the code the empty string fails the postcode
classification (Python `isalnum` is false on it), so the location is
geocoded as the string ", UK"; when the geocoder resolves that query — as
the real geocoder does for a country-suffixed query — the request
succeeds with a 200 response, contradicting the claim (and the
repository's own test, which expects 400 or 422). -/
theorem C2_empty_location_can_return_200 :
    isPostcodeFormat "" = false ∧
    ∃ resp, search_businesses envGeocodeUK reqEmptyLocation = .ok resp ∧
      resp.success = true ∧
      statusOf (search_businesses envGeocodeUK reqEmptyLocation) = none :=
  ⟨rfl, _, rfl, rfl, rfl⟩

/-- C3 counterexample: the claim quantifies over every business name
string, but a name whose normalisation leaves no words — here a
punctuation-only name, which the punctuation stripping empties — takes
the guard branch and scores 0 against itself, not 1. -/
theorem C3_self_similarity_counterexample :
    calculate_name_similarity "!!!" "!!!" = 0 ∧
    calculate_name_similarity "!!!" "!!!" ≠ 1 := by
  have h : calculate_name_similarity "!!!" "!!!" = 0 :=
    sim_eq_zero_of_empty (Or.inl (by decide))
  exact ⟨h, by rw [h]; norm_num⟩

/-- C3 amended: for every name whose normalised word set is non-empty,
the similarity of the name with itself is exactly 1; both arguments pass
through the same normalisation, so the word sets coincide and the Jaccard
ratio is 1. -/
theorem C3_self_similarity_one (name : String) (h : wordSet name ≠ ∅) :
    calculate_name_similarity name name = 1 :=
  sim_eq_one_of_wordSet_eq rfl h

/-- Witness for C3: the spec's own example name has a non-empty normalised
word set and self-similarity 1. -/
theorem C3_self_similarity_one_witness :
    wordSet "Acme Ltd" ≠ ∅ ∧
    calculate_name_similarity "Acme Ltd" "Acme Ltd" = 1 :=
  ⟨by decide, C3_self_similarity_one "Acme Ltd" (by decide)⟩

/-- C4: a candidate is selected only when its score (name similarity plus
any postcode bonus) strictly exceeds 0.4, and when every candidate scores
at most 0.4 — in particular when the only candidate does — the enrichment
yields none. -/
theorem C4_similarity_threshold (reg : RegistryEnv)
    (business_name : String) (postcode : Option String) :
    (∀ c, (findBestMatch business_name postcode
        (reg.chSearch business_name)).1 = some c →
      candidateScore business_name postcode c > 2 / 5) ∧
    ((∀ c ∈ reg.chSearch business_name,
        candidateScore business_name postcode c ≤ 2 / 5) →
      enhance_with_companies_house_data reg business_name postcode =
        none) := by
  constructor
  · intro c hc
    refine bestFold_some (reg.chSearch business_name) (none, 0) ?_ c hc
    intro c' hc'
    exact absurd hc' (by simp)
  · intro hall
    unfold enhance_with_companies_house_data
    simp only []
    by_cases hc : reg.chSearch business_name = []
    · rw [if_pos hc]
    · rw [if_neg hc]
      have h1 : (findBestMatch business_name postcode
          (reg.chSearch business_name)).1 = none := by
        unfold findBestMatch
        rw [bestFold_const _ _ hall]
      rw [h1]

/-- Witness for C4: with a single candidate of score 0 the enrichment
yields none. -/
theorem C4_similarity_threshold_witness :
    enhance_with_companies_house_data regOnlyZero "Acme Joinery" none =
      none :=
  (C4_similarity_threshold regOnlyZero "Acme Joinery" none).2 (by
    intro c hc
    have hc' : c = candZeroScore := by simpa [regOnlyZero] using hc
    subst hc'
    have h0 : candidateScore "Acme Joinery" none candZeroScore = 0 := by
      have he : candidateScore "Acme Joinery" none candZeroScore =
          calculate_name_similarity "Acme Joinery" "" := rfl
      rw [he]
      exact sim_eq_zero_of_empty (Or.inr (by decide))
    rw [h0]
    norm_num)

/-- C5: within one search the returned business list never contains two
entries with the same provider place id — the `processed_place_ids` set is
created once per request and shared by every category and pagination page,
so deduplication is global to the whole multi-category search. -/
theorem C5_global_dedup (env : Env) (req : BusinessSearchRequest) :
    ((businessesOf (search_businesses env req)).map
      (fun b => b.place_id)).Nodup := by
  rcases hres : resolveSearchLocation env req with e | coords
  · have hb : search_businesses env req =
        .error ⟨500, "Search failed: " ++ toString e.status ++ ": " ++
          e.detail⟩ := by
      unfold search_businesses
      rw [hres]
    rw [hb]
    simp [businessesOf]
  · have hb : search_businesses env req =
        .ok { success := true
              total_found := (pyTake req.max_results
                (searchAll env req coords).businesses).length
              businesses := pyTake req.max_results
                (searchAll env req coords).businesses
              search_location := coords
              search_params := req } := by
      unfold search_businesses
      rw [hres]
    rw [hb]
    exact List.Nodup.sublist ((pyTake_sublist _ _).map _)
      (searchAll_nodup env req coords)

/-- C6: a category whose lowered form misses the lookup tables never
fails: the mapper returns the generic-contractor provider type with the
category string itself as keyword, and the display label is the
title-cased category string; concretely, a search for the unrecognized
category "roof_wizard" succeeds with `primary_industry` equal to
"Roof_Wizard". -/
theorem C6_unknown_category_fallback :
    (∀ bt : String, type_mapping.lookup (pyLowerS bt) = none →
      industry_mapping.lookup (pyLowerS bt) = none →
      map_business_type_to_google_type bt = ("general_contractor", bt) ∧
      industryLabel bt = pyTitle bt) ∧
    (∃ resp, search_businesses envOnePlace reqRoofWizard = .ok resp ∧
      resp.success = true ∧
      resp.businesses.map (fun b => b.primary_industry) =
        ["Roof_Wizard"]) := by
  constructor
  · intro bt h1 h2
    constructor
    · unfold map_business_type_to_google_type
      rw [h1]
      rfl
    · unfold industryLabel
      rw [h2]
      rfl
  · exact ⟨_, rfl, rfl, rfl⟩

/-- Witness for C6: the fallback at the unrecognized category
"roof_wizard". -/
theorem C6_unknown_category_fallback_witness :
    map_business_type_to_google_type "roof_wizard" =
      ("general_contractor", "roof_wizard") ∧
    industryLabel "roof_wizard" = pyTitle "roof_wizard" :=
  C6_unknown_category_fallback.1 "roof_wizard" (by decide) (by decide)

/-- C7: on a successful search the returned list is the global
`max_results` truncation, applied only after every category was
processed: it equals the Python slice of the full cross-category
accumulation, its length never exceeds `max_results`, it is a prefix of
the accumulation, and the accumulation after any prefix of the category
list is itself a prefix of the full accumulation (the categories
contribute in caller order and the cap is not per-category). -/
theorem C7_global_truncation (env : Env) (req : BusinessSearchRequest)
    (resp : SearchResponse) (h0 : 0 ≤ req.max_results)
    (h : search_businesses env req = .ok resp) :
    resp.businesses = (searchAll env req
      resp.search_location).businesses.take req.max_results.toNat ∧
    (resp.businesses.length : Int) ≤ req.max_results ∧
    resp.businesses <+:
      (searchAll env req resp.search_location).businesses ∧
    ∀ l1 l2, req.business_types = l1 ++ l2 →
      (l1.foldl (runCategory env req resp.search_location)
        ⟨[], []⟩).businesses <+:
        (searchAll env req resp.search_location).businesses := by
  rcases hres : resolveSearchLocation env req with e | coords
  · unfold search_businesses at h
    rw [hres] at h
    exact absurd h (by simp)
  · unfold search_businesses at h
    rw [hres] at h
    have hr := Except.ok.inj h
    subst hr
    refine ⟨?_, ?_, ?_, ?_⟩
    · show pyTake req.max_results (searchAll env req coords).businesses =
        (searchAll env req coords).businesses.take req.max_results.toNat
      unfold pyTake
      rw [if_pos h0]
    · show ((pyTake req.max_results
          (searchAll env req coords).businesses).length : Int) ≤
        req.max_results
      have hlen : (pyTake req.max_results
          (searchAll env req coords).businesses).length ≤
          req.max_results.toNat := by
        unfold pyTake
        rw [if_pos h0]
        exact List.length_take_le _ _
      calc ((pyTake req.max_results
            (searchAll env req coords).businesses).length : Int) ≤
          (req.max_results.toNat : Int) := by exact_mod_cast hlen
        _ = req.max_results := Int.toNat_of_nonneg h0
    · show pyTake req.max_results (searchAll env req coords).businesses <+:
        (searchAll env req coords).businesses
      unfold pyTake
      rw [if_pos h0]
      exact List.take_prefix _ _
    · intro l1 l2 htypes
      show (l1.foldl (runCategory env req coords) ⟨[], []⟩).businesses <+:
        (searchAll env req coords).businesses
      unfold searchAll
      rw [htypes, List.foldl_append]
      obtain ⟨-, delta, hb, -, -⟩ := foldlCategories_extends env req coords
        l2 (l1.foldl (runCategory env req coords) ⟨[], []⟩)
      rw [hb]
      exact List.prefix_append _ _

/-- Witness for C7: the truncation equalities at a concrete searched
request. -/
theorem C7_global_truncation_witness :
    respNoCategories.businesses = (searchAll envPostcodeOnly reqNoCategories
      respNoCategories.search_location).businesses.take
        reqNoCategories.max_results.toNat ∧
    (respNoCategories.businesses.length : Int) ≤
      reqNoCategories.max_results ∧
    respNoCategories.businesses <+: (searchAll envPostcodeOnly
      reqNoCategories respNoCategories.search_location).businesses ∧
    (([] : List String).foldl (runCategory envPostcodeOnly reqNoCategories
      respNoCategories.search_location) ⟨[], []⟩).businesses <+:
      (searchAll envPostcodeOnly reqNoCategories
        respNoCategories.search_location).businesses :=
  have H := C7_global_truncation envPostcodeOnly reqNoCategories
    respNoCategories (by decide) rfl
  ⟨H.1, H.2.1, H.2.2.1, H.2.2.2 [] [] rfl⟩


/-- C8: the upsert is keyed on the place id and idempotent — given a store
with unique place ids, after upserting the same record at times t1 and
then t2 there is exactly one stored document for that id; its content is
the record wholesale (the set writes every field, a full-document
replacement over the stored schema) with the timestamp of the latest
upsert, and the second upsert adds no document. -/
theorem C8_upsert_idempotent (store : List StoredDoc) (b : BusinessInfo)
    (t1 t2 : Nat)
    (h : (store.map (fun d => d.info.place_id)).Nodup) :
    (cache_business_info store b t1).filter
      (fun d => d.info.place_id == b.place_id) = [⟨b, t1⟩] ∧
    (cache_business_info (cache_business_info store b t1) b t2).filter
      (fun d => d.info.place_id == b.place_id) = [⟨b, t2⟩] ∧
    (cache_business_info (cache_business_info store b t1) b t2).length =
      (cache_business_info store b t1).length := by
  have h1 := cache_filter store b t1 h
  have hn1 := cache_pids_nodup store b t1 h
  have h2 := cache_filter (cache_business_info store b t1) b t2 hn1
  have hmem : b.place_id ∈ (cache_business_info store b t1).map
      (fun d => d.info.place_id) := by
    have hm : (⟨b, t1⟩ : StoredDoc) ∈ cache_business_info store b t1 := by
      refine List.mem_of_mem_filter (p := fun d => d.info.place_id == b.place_id) ?_
      rw [h1]
      exact List.mem_singleton_self _
    exact List.mem_map.mpr ⟨⟨b, t1⟩, hm, rfl⟩
  exact ⟨h1, h2, cache_length_of_mem _ b t2 hmem⟩

/-- Witness for C8: double upsert of a concrete record into the empty
store. -/
theorem C8_upsert_idempotent_witness :
    (cache_business_info [] bizSample 1).filter
      (fun d => d.info.place_id == bizSample.place_id) = [⟨bizSample, 1⟩] ∧
    (cache_business_info (cache_business_info [] bizSample 1) bizSample
      2).filter (fun d => d.info.place_id == bizSample.place_id) =
      [⟨bizSample, 2⟩] ∧
    (cache_business_info (cache_business_info [] bizSample 1) bizSample
      2).length = (cache_business_info [] bizSample 1).length :=
  C8_upsert_idempotent [] bizSample 1 2 (by simp)

/-- C9: once a candidate is selected, a failed or absent profile fetch
makes the whole enrichment yield none; a failed officers fetch alone
degrades to an empty directors list; otherwise the officers are truncated
to the first 5 and each reduced to name, role and appointment date.  The
model is a total function, so no failure propagates to the surrounding
search. -/
theorem C9_enrichment_failure_policy (reg : RegistryEnv)
    (business_name : String) (postcode : Option String) :
    (∀ c, (findBestMatch business_name postcode
        (reg.chSearch business_name)).1 = some c →
      (reg.chProfile c.company_number = .error () ∨
        reg.chProfile c.company_number = .ok none) →
      enhance_with_companies_house_data reg business_name postcode =
        none) ∧
    (∀ c (p : CHProfile), (findBestMatch business_name postcode
        (reg.chSearch business_name)).1 = some c →
      reg.chProfile c.company_number = .ok (some p) →
      reg.chOfficers c.company_number = .error () →
      enhance_with_companies_house_data reg business_name postcode =
        some (assembleCompaniesHouseData c p [])) ∧
    (∀ c (p : CHProfile) (os : List Officer),
      (findBestMatch business_name postcode
        (reg.chSearch business_name)).1 = some c →
      reg.chProfile c.company_number = .ok (some p) →
      reg.chOfficers c.company_number = .ok os →
      enhance_with_companies_house_data reg business_name postcode =
        some (assembleCompaniesHouseData c p
          ((os.take 5).map reduceOfficer))) := by
  refine ⟨?_, ?_, ?_⟩
  · intro c hsel hprof
    rw [enhance_eq_of_sel hsel]
    rcases hprof with h | h <;> rw [h]
  · intro c p hsel hprof hoff
    rw [enhance_eq_of_sel hsel, hprof, hoff]
  · intro c p os hsel hprof hoff
    rw [enhance_eq_of_sel hsel, hprof, hoff]

/-- Witness for C9: a successful enrichment with six offered officers
keeps exactly the first five. -/
theorem C9_enrichment_failure_policy_witness :
    enhance_with_companies_house_data regFullSuccess "Acme" none =
      some (assembleCompaniesHouseData candExact profExact
        ((officersSix.take 5).map reduceOfficer)) :=
  (C9_enrichment_failure_policy regFullSuccess "Acme" none).2.2 candExact
    profExact officersSix
    (by
      have hs : candidateScore "Acme" none candExact = 1 := by
        have he : candidateScore "Acme" none candExact =
            calculate_name_similarity "Acme" "Acme" := rfl
        rw [he]
        exact sim_eq_one_of_wordSet_eq rfl (by decide)
      show (List.foldl (bestStep "Acme" none) (none, 0) [candExact]).1 =
        some candExact
      rw [List.foldl_cons, List.foldl_nil]
      unfold bestStep
      simp only [hs]
      norm_num)
    rfl rfl

/-- C10 counterexample: the claim's example asserts that a name consisting
only of a legal suffix, such as "Ltd", normalises to the empty word set
and scores 0; in the code the suffix stripping removes a suffix only
together with an adjacent space, so the lone "Ltd" survives normalisation
and scores 1 against itself. -/
theorem C10_suffix_only_counterexample :
    wordSet "Ltd" ≠ ∅ ∧ calculate_name_similarity "Ltd" "Ltd" = 1 :=
  ⟨by decide, sim_eq_one_of_wordSet_eq rfl (by decide)⟩

/-- C10 amended: the similarity function is total with result in the unit
interval; whenever either input normalises to an empty word set (for
example a punctuation-only name — though not a lone suffix like "Ltd",
which survives normalisation) it returns 0 through the guard, and when
both word sets are non-empty their union is non-empty, so the
division-by-zero branch is unreachable. -/
theorem C10_totality_and_range (name1 name2 : String) :
    0 ≤ calculate_name_similarity name1 name2 ∧
    calculate_name_similarity name1 name2 ≤ 1 ∧
    ((wordSet name1 = ∅ ∨ wordSet name2 = ∅) →
      calculate_name_similarity name1 name2 = 0) ∧
    (wordSet name1 ≠ ∅ → wordSet name1 ∪ wordSet name2 ≠ ∅) := by
  have hunion : wordSet name1 ≠ ∅ → wordSet name1 ∪ wordSet name2 ≠ ∅ := by
    intro hne hu
    exact hne (Finset.union_eq_empty.mp hu).1
  by_cases h : wordSet name1 = ∅ ∨ wordSet name2 = ∅
  · have h0 := sim_eq_zero_of_empty h
    exact ⟨by rw [h0], by rw [h0]; norm_num, fun _ => h0, hunion⟩
  · have hval : calculate_name_similarity name1 name2 =
        ((wordSet name1 ∩ wordSet name2).card : ℚ) /
          ((wordSet name1 ∪ wordSet name2).card : ℚ) := by
      unfold calculate_name_similarity
      rw [if_neg h, if_neg]
      push_neg at h
      exact hunion h.1
    have hcard : (wordSet name1 ∩ wordSet name2).card ≤
        (wordSet name1 ∪ wordSet name2).card :=
      Finset.card_le_card (Finset.inter_subset_union)
    have hpos : 0 < ((wordSet name1 ∪ wordSet name2).card : ℚ) := by
      push_neg at h
      have hp := Finset.card_pos.mpr
        (Finset.nonempty_iff_ne_empty.mpr (hunion h.1))
      exact_mod_cast hp
    refine ⟨?_, ?_, fun hc => absurd hc h, hunion⟩
    · rw [hval]
      exact div_nonneg (Nat.cast_nonneg _) (Nat.cast_nonneg _)
    · rw [hval]
      rw [div_le_one hpos]
      exact_mod_cast hcard

/-- Witness for C10: the empty-word-set conjunct at a punctuation-only
name, and the union conjunct at two ordinary names. -/
theorem C10_totality_and_range_witness :
    calculate_name_similarity "Acme" "!!!" = 0 ∧
    wordSet "Acme" ∪ wordSet "Bravo" ≠ ∅ :=
  ⟨(C10_totality_and_range "Acme" "!!!").2.2.1 (Or.inr (by decide)),
    (C10_totality_and_range "Acme" "Bravo").2.2.2 (by decide)⟩
